import Mathlib

/-!
Verification development for the LTspice `.raw` waveform parser
(`src/lib.rs`, `SteppedSimulation`).  The parser is shallowly embedded:

* machine integers are `Nat` with explicit `% 2^w` where Rust wrapping
  (release-mode) semantics matter;
* `f64`/`f32` values are represented by their IEEE-754 bit patterns as
  `Nat`; Rust float `==` is `f64Eq` on bit patterns (`+0.0 == -0.0`,
  `NaN != NaN`); byte order is the platform's native order, modelled as
  little-endian (x86-64 / aarch64);
* fallible Rust code (`Result`, `?`) is an `err` outcome carrying the
  source's error string; `panic!` / `unwrap()` failures are a distinct
  `panic` outcome;
* the `tracing` log macros (`debug!` / `warn!` / `error!`) evaluate their
  arguments only when a diagnostics subscriber is active, so the pure
  parse result is modelled without them; the one log argument expression
  that can itself fail (`self.data.get("V(v_in)").unwrap().last().unwrap()`)
  is modelled separately as `finalDebugLookup`;
* the filesystem and the date parser are external collaborators: the three
  path checks take a `PathInfo` record, and the `Date` field records the
  raw header value (both a successful parse and the current-time fallback
  produce a timestamp, which no claim inspects).
-/

namespace LTSpice

/- #### Format model enums (src/lib.rs lines 24-68) #### -/

inductive Mode
  | Transient | FFT | AC | DC | Noise | OperatingPoint
deriving DecidableEq, Repr

inductive FileType
  | Binary | ASCII
deriving DecidableEq, Repr

inductive DataType
  | Float32 | Float64 | Complex128
deriving DecidableEq, Repr

inductive Encoding
  | UTF8 | UTF16 | UTF32 | ASCII
deriving DecidableEq, Repr

inductive Flags
  | Stepped | Real | Double
deriving DecidableEq, Repr

inductive VariableClass
  | Voltage | Current | Frequency | Unknown
deriving DecidableEq, Repr

/-- Source: `SteppedVariable` (lines 73-76); the Rust field `class` is a Lean
keyword, so it is named `varClass` here. -/
structure SteppedVariable where
  varClass : VariableClass
  name : List Char
deriving DecidableEq, Repr

/- #### IEEE-754 bit-pattern semantics #### -/

/-- Little-endian byte list to unsigned value (`from_ne_bytes` on the
supported little-endian platforms). Bytes are `u8` values (< 256). -/
def leVal : List Nat → Nat
  | [] => 0
  | b :: r => b + 256 * leVal r

/-- An `f64` bit pattern is a NaN iff its exponent field is all ones and
its mantissa is nonzero. -/
def f64IsNaN (bits : Nat) : Bool :=
  bits / 2 ^ 52 % 2 ^ 11 == 2047 && bits % 2 ^ 52 != 0

/-- An `f64` bit pattern denotes ±0.0 iff all bits below the sign bit are 0. -/
def f64IsZero (bits : Nat) : Bool :=
  bits % 2 ^ 63 == 0

/-- Rust `f64 == f64` on bit patterns: `+0.0 == -0.0`; `NaN != NaN`; all
other finite/infinite values have a unique bit pattern. -/
def f64Eq (a b : Nat) : Bool :=
  (f64IsZero a && f64IsZero b) || (a == b && !f64IsNaN a)

/-- Bit pattern of `f32 as f64` (the exact widening cast used for
`Float32` samples, line 324/376).  NaN payloads are carried across by a
plain mantissa shift; Rust leaves the exact NaN result unspecified, and no
claim inspects it. -/
def f32ToF64Bits (b : Nat) : Nat :=
  let s := b / 2 ^ 31 % 2
  let e := b / 2 ^ 23 % 2 ^ 8
  let m := b % 2 ^ 23
  if e = 255 then s * 2 ^ 63 + 2047 * 2 ^ 52 + m * 2 ^ 29
  else if e = 0 then
    if m = 0 then s * 2 ^ 63
    else
      let t := Nat.log2 m
      s * 2 ^ 63 + (t + 874) * 2 ^ 52 + (m - 2 ^ t) * 2 ^ (52 - t)
  else s * 2 ^ 63 + (e + 896) * 2 ^ 52 + m * 2 ^ 29

/-- Source: `Value` (lines 79-82): a sample, with `real` and `imaginary` stored as
`f64` bit patterns.  The literal `0.0` is the all-zero pattern. -/
structure Value where
  real : Nat
  imaginary : Nat
deriving DecidableEq, Repr

/-- Source: `PartialEq for Value` (lines 84-88): component-wise `f64` equality. -/
def valueEq (a b : Value) : Bool :=
  f64Eq a.real b.real && f64Eq a.imaginary b.imaginary

/-- Source: `SimulationStats` (lines 91-96): the Rust fields `variables`, `points`,
`step_size` are `u32`, `steps` is `u16`; stored as the denoted `Nat`
values.  `variables` is a reserved word in Lean, so it is `variableCount`
here. -/
structure SimulationStats where
  variableCount : Nat
  points : Nat
  steps : Nat
  step_size : Nat
deriving DecidableEq, Repr

/-- The dataset `HashMap<String, Vec<Vec<Value>>>` as an association list.
Hash iteration order never matters: every header field writes a distinct
part of the state, so the field actions commute. -/
abbrev Data := List (List Char × List (List Value))

/-- Source: `SteppedSimulation` (lines 99-108) minus the `path` field (the
filesystem is a collaborator, see `PathInfo`).  The Rust field
`variables` is `declaredVars` here (reserved word in Lean). -/
structure SteppedSimulation where
  encoding : Encoding
  mode : Mode
  flags : List Flags
  dateRaw : Option (List Char)
  stats : SimulationStats
  declaredVars : List SteppedVariable
  data : Data
deriving DecidableEq, Repr

/-- Source: `SteppedSimulation::new` (lines 113-129): the freshly constructed
state a parse starts from. -/
def newSim : SteppedSimulation :=
  { encoding := .UTF8
    mode := .Transient
    flags := []
    dateRaw := none
    stats := { variableCount := 0, points := 0, steps := 0, step_size := 0 }
    declaredVars := []
    data := [] }

/- #### Association-list operations (HashMap model) #### -/

/-- Source: `HashMap::get`. -/
def lookupD (d : Data) (k : List Char) : Option (List (List Value)) :=
  match d with
  | [] => none
  | (k2, v) :: r => if k2 = k then some v else lookupD r k

/-- Source: `HashMap::insert` (replace an existing key, else add). -/
def assocInsert (d : Data) (k : List Char) (v : List (List Value)) : Data :=
  match d with
  | [] => [(k, v)]
  | (k2, w) :: r => if k2 = k then (k2, v) :: r else (k2, w) :: assocInsert r k v

/-- Source: `HashMap::get_mut(k).unwrap()` followed by an in-place update.  At
every call site the key is present (inserted beforehand), so the
absent-key case is unreachable and modelled as a no-op. -/
def assocUpdate (d : Data) (k : List Char) (f : List (List Value) → List (List Value)) : Data :=
  match d with
  | [] => []
  | (k2, v) :: r => if k2 = k then (k2, f v) :: r else (k2, v) :: assocUpdate r k f

/- #### Lossy text decoding (String::from_utf8_lossy / from_utf16_lossy) #### -/

/-- The U+FFFD replacement character. -/
def repl : Char := Char.ofNat 0xFFFD

def isCont (b : Nat) : Bool := 0x80 ≤ b && b ≤ 0xBF

/-- Source: `String::from_utf8_lossy`, Unicode "maximal subpart" substitution,
with a fuel argument (each step consumes at least one byte, so fuel =
input length suffices). -/
def utf8LossyF : Nat → List Nat → List Char
  | 0, _ => []
  | _, [] => []
  | fuel + 1, b :: rest =>
    if b < 0x80 then Char.ofNat b :: utf8LossyF fuel rest
    else if b < 0xC2 then repl :: utf8LossyF fuel rest
    else if b ≤ 0xDF then
      match rest with
      | c :: r2 =>
        if isCont c then Char.ofNat ((b - 0xC0) * 64 + (c - 0x80)) :: utf8LossyF fuel r2
        else repl :: utf8LossyF fuel rest
      | [] => [repl]
    else if b ≤ 0xEF then
      let lo2 := if b = 0xE0 then 0xA0 else 0x80
      let hi2 := if b = 0xED then 0x9F else 0xBF
      match rest with
      | c :: r2 =>
        if lo2 ≤ c && c ≤ hi2 then
          match r2 with
          | d :: r3 =>
            if isCont d then
              Char.ofNat ((b - 0xE0) * 4096 + (c - 0x80) * 64 + (d - 0x80)) :: utf8LossyF fuel r3
            else repl :: utf8LossyF fuel r2
          | [] => [repl]
        else repl :: utf8LossyF fuel rest
      | [] => [repl]
    else if b ≤ 0xF4 then
      let lo2 := if b = 0xF0 then 0x90 else 0x80
      let hi2 := if b = 0xF4 then 0x8F else 0xBF
      match rest with
      | c :: r2 =>
        if lo2 ≤ c && c ≤ hi2 then
          match r2 with
          | d :: r3 =>
            if isCont d then
              match r3 with
              | e :: r4 =>
                if isCont e then
                  Char.ofNat ((b - 0xF0) * 262144 + (c - 0x80) * 4096 + (d - 0x80) * 64 + (e - 0x80))
                    :: utf8LossyF fuel r4
                else repl :: utf8LossyF fuel r3
              | [] => [repl]
            else repl :: utf8LossyF fuel r2
          | [] => [repl]
        else repl :: utf8LossyF fuel rest
      | [] => [repl]
    else repl :: utf8LossyF fuel rest

def utf8Lossy (b : List Nat) : List Char := utf8LossyF b.length b

/-- Source: `chunks_exact(2)` + `u16::from_le_bytes` (lines 179-183); a trailing
odd byte is dropped. -/
def leU16s : List Nat → List Nat
  | a :: b :: r => (a + 256 * b) :: leU16s r
  | _ => []

/-- Source: `String::from_utf16_lossy` on a `u16` sequence: unpaired surrogates
become U+FFFD. -/
def utf16LossyF : Nat → List Nat → List Char
  | 0, _ => []
  | _, [] => []
  | fuel + 1, u :: r =>
    if u < 0xD800 || 0xE000 ≤ u then Char.ofNat u :: utf16LossyF fuel r
    else if u < 0xDC00 then
      match r with
      | v :: r2 =>
        if 0xDC00 ≤ v && v < 0xE000 then
          Char.ofNat (0x10000 + (u - 0xD800) * 0x400 + (v - 0xDC00)) :: utf16LossyF fuel r2
        else repl :: utf16LossyF fuel r
      | [] => [repl]
    else repl :: utf16LossyF fuel r

def utf16Lossy (us : List Nat) : List Char := utf16LossyF us.length us

/- #### Substring search on decoded text #### -/

/-- Source: `pat` occurs at the start of `t`. -/
def leadsWith : List Char → List Char → Bool
  | [], _ => true
  | _ :: _, [] => false
  | p :: ps, c :: cs => p = c && leadsWith ps cs

/-- Source: `str::contains(pat)`. -/
def containsSub (pat : List Char) : List Char → Bool
  | [] => leadsWith pat []
  | t@(_ :: r) => leadsWith pat t || containsSub pat r

/-- Source: `str::find(pat)` in character positions (converted to a byte offset by
`utf8Len` where the source uses the byte index). -/
def findSubChar (pat : List Char) : List Char → Option Nat
  | [] => if leadsWith pat [] then some 0 else none
  | t@(_ :: r) => if leadsWith pat t then some 0 else (findSubChar pat r).map (· + 1)

/-- UTF-8 encoded length of one char (to convert `str::find`'s char
position back into the byte offset the source works with). -/
def charUtf8Len (c : Char) : Nat :=
  if c.toNat < 0x80 then 1
  else if c.toNat < 0x800 then 2
  else if c.toNat < 0x10000 then 3
  else 4

def utf8Len (l : List Char) : Nat := (l.map charUtf8Len).sum

/- #### Header tokenization: the field regex (line 216)
`(?:^|\n)([a-zA-Z .]*[a-zA-Z]+):((?:.+)|(?:(?:.|\n)+(?:Binary:)))`
simulated with the regex crate's leftmost-first semantics. #### -/

def isKeyChar (c : Char) : Bool := c.isAlpha || c = ' ' || c = '.'

def lastIsAlpha (l : List Char) : Bool :=
  match l.getLast? with
  | some c => c.isAlpha
  | none => false

def binaryColon : List Char := "Binary:".data

/-- Largest `q ≥ 1` such that "Binary:" occurs at `q` (greedy `(?:.|\n)+`
backtracks from the right; at least one character must precede). -/
def lastBinOcc (t : List Char) : Option Nat :=
  ((List.range t.length).filter fun q => q != 0 && leadsWith binaryColon (t.drop q)).getLast?

/-- One anchored attempt of the field regex (after `(?:^|\n)` has been
consumed): returns `(key, value, remainder-after-match)`.
The key is the maximal run of `[a-zA-Z .]`; the run must be nonempty, end
in a letter and be followed by `:`.  The value is the rest of the line if
nonempty (`.+`, preferred branch), else everything up to and including the
last "Binary:" with at least one character before it. -/
def matchFieldAt (s : List Char) : Option (List Char × List Char × List Char) :=
  let run := s.takeWhile isKeyChar
  if run.isEmpty then none
  else if !lastIsAlpha run then none
  else
    match s.drop run.length with
    | ':' :: t =>
      let line := t.takeWhile (fun c => c != '\n')
      if !line.isEmpty then some (run, line, t.drop line.length)
      else
        match lastBinOcc t with
        | some q => some (run, t.take (q + 7), t.drop (q + 7))
        | none => none
    | _ => none

/-- Source: `captures_iter` of the field regex: scan left to right; `^` applies
only at offset 0, otherwise a match consumes a preceding newline; a match
advances the scan past its end.  Fuel = text length (every step consumes
at least one character). -/
def scanFields : Nat → List Char → Bool → List (List Char × List Char)
  | 0, _, _ => []
  | fuel + 1, s, first =>
    match s with
    | [] => []
    | c :: rest =>
      match (if first then matchFieldAt s else none) with
      | some (k, v, rem) => (k, v) :: scanFields fuel rem false
      | none =>
        if c = '\n' then
          match matchFieldAt rest with
          | some (k, v, rem) => (k, v) :: scanFields fuel rem false
          | none => scanFields fuel rest false
        else scanFields fuel rest false

/-- Collect the captures into the `values` HashMap (line 218-220): a
duplicate key overwrites the earlier value. -/
def toFieldMap (l : List (List Char × List Char)) : List (List Char × List Char) :=
  l.foldl (fun m kv =>
    let rec ins : List (List Char × List Char) → List (List Char × List Char)
      | [] => [kv]
      | (k2, w) :: r => if k2 = kv.1 then (k2, kv.2) :: r else (k2, w) :: ins r
    ins m) []

/- #### The `Variables` regex (line 252)
`\s*(\d+)\s*([VIx]+\((?:.|:|\d)+\))\s*(\w+)\n` #### -/

/-- regex `\s`: `[ \t\n\x0b\x0c\r]`. -/
def isWsRe (c : Char) : Bool :=
  c = ' ' || c = '\t' || c = '\n' || c = '\r' || c = '\x0b' || c = '\x0c'

/-- regex `\w`, ASCII part (the headers the parser meets are ASCII). -/
def isWordRe (c : Char) : Bool := c.isAlphanum || c = '_'

def isVIx (c : Char) : Bool := c = 'V' || c = 'I' || c = 'x'

/-- Backtracking over the position of `\)`: the inner `(?:.|:|\d)+` is
greedy, so candidate positions are tried right to left; after the `)`
comes `\s*(\w+)\n`.  Returns `(cap2 name, cap3 tag, remainder)`. -/
def tryParenCands (vix t : List Char) : List Nat → Option (List Char × List Char × List Char)
  | [] => none
  | j :: js =>
    let u := t.drop (j + 1)
    let r1 := u.dropWhile isWsRe
    let w := r1.takeWhile isWordRe
    if !w.isEmpty && leadsWith ['\n'] (r1.drop w.length) then
      some (vix ++ '(' :: (t.take j ++ [')']), w, (r1.drop w.length).drop 1)
    else tryParenCands vix t js

/-- One anchored attempt of the `Variables` regex.  The runs matched by
`\s*`, `\d+`, `[VIx]+`, the trailing `\s*` and `\w+` are all forced
maximal because adjacent character classes are disjoint. -/
def matchVarAt (s : List Char) : Option (List Char × List Char × List Char) :=
  let s1 := s.dropWhile isWsRe
  let dig := s1.takeWhile Char.isDigit
  if dig.isEmpty then none
  else
    let s2 := (s1.drop dig.length).dropWhile isWsRe
    let vix := s2.takeWhile isVIx
    if vix.isEmpty then none
    else
      match s2.drop vix.length with
      | '(' :: t =>
        let lineLen := (t.takeWhile (fun c => c != '\n')).length
        let cands :=
          ((List.range lineLen).filter fun j => j != 0 && leadsWith [')'] (t.drop j)).reverse
        tryParenCands vix t cands
      | _ => none

/-- Source: `match &cap[3] { "V" => Voltage, "I" => Current, _ => Unknown }`
(lines 255-259): the whole type tag is compared, so a tag like
"voltage" is `Unknown`. -/
def classOfTag (tag : List Char) : VariableClass :=
  if tag = ['V'] then .Voltage
  else if tag = ['I'] then .Current
  else .Unknown

/-- Source: `captures_iter` of the `Variables` regex over the field value. -/
def varScan : Nat → List Char → List SteppedVariable
  | 0, _ => []
  | fuel + 1, s =>
    match s with
    | [] => []
    | _ :: rest =>
      match matchVarAt s with
      | some (nm, tag, rem) => ⟨classOfTag tag, nm⟩ :: varScan fuel rem
      | none => varScan fuel rest

def varsOfValue (v : List Char) : List SteppedVariable := varScan v.length v

/- #### Recognized field actions (lines 225-271) #### -/

/-- Rust `str::trim` (ASCII whitespace; the header text is ASCII). -/
def trimRust (s : List Char) : List Char :=
  ((s.dropWhile isWsRe).reverse.dropWhile isWsRe).reverse

/-- Source: `str::parse::<u32>`: optional leading `+`, then one or more ASCII
digits, value below `2^32`; anything else is a `ParseIntError`. -/
def parseU32 (s : List Char) : Option Nat :=
  let s1 := match s with
    | '+' :: r => r
    | _ => s
  if s1.isEmpty then none
  else if s1.all Char.isDigit then
    let n := s1.foldl (fun a c => a * 10 + (c.toNat - 48)) 0
    if n < 2 ^ 32 then some n else none
  else none

/-- Source: `Plotname` mapping (lines 234-242).  Note the source maps the string
"FFT" to `Mode::OperatingPoint` (line 240), and the whole value string is
compared, so a value with a leading space after the colon matches no arm. -/
def plotMode (current : Mode) (v : List Char) : Mode :=
  if v = "Transient Analysis".data then .Transient
  else if v = "AC Analysis".data then .AC
  else if v = "DC Analysis".data then .DC
  else if v = "Noise Analysis".data then .Noise
  else if v = "Operating Point".data then .OperatingPoint
  else if v = "FFT".data then .OperatingPoint
  else current

/-- Source: `Flags` mapping (lines 243-248): the ENTIRE value string is matched
against one flag name; a multi-token value sets no flag. -/
def flagsOfValue (v : List Char) : List Flags :=
  if v = "stepped".data then [.Stepped]
  else if v = "real".data then [.Real]
  else if v = "double".data then [.Double]
  else []

def parseIntErrMsg : String := "invalid digit found in string"

/-- Processing of one header field (the `match key.as_str()` at lines
226-270).  Unrecognized keys are only logged (`warn!`), so they leave the
state unchanged. -/
def applyField (st : SteppedSimulation) (key value : List Char) : Except String SteppedSimulation :=
  if key = "Title".data then .ok st
  else if key = "Date".data then .ok { st with dateRaw := some value }
  else if key = "Plotname".data then .ok { st with mode := plotMode st.mode value }
  else if key = "Flags".data then .ok { st with flags := st.flags ++ flagsOfValue value }
  else if key = "No. Points".data then
    match parseU32 (trimRust value) with
    | some n => .ok { st with stats := { st.stats with points := n } }
    | none => .error parseIntErrMsg
  else if key = "No. Variables".data then
    match parseU32 (trimRust value) with
    | some n => .ok { st with stats := { st.stats with variableCount := n } }
    | none => .error parseIntErrMsg
  else if key = "Variables".data then
    .ok { st with declaredVars := st.declaredVars ++ varsOfValue value }
  else .ok st

/-- The field loop (`for (key, value) in values.iter()`): a failed numeric
parse aborts via `?`.  HashMap iteration order does not matter because the
actions write disjoint state and all numeric failures carry the same
error. -/
def applyFields : List (List Char × List Char) → SteppedSimulation → Except String SteppedSimulation
  | [], st => .ok st
  | (k, v) :: rest, st =>
    match applyField st k v with
    | .error m => .error m
    | .ok st2 => applyFields rest st2

/- #### Parse outcomes #### -/

/-- Outcome of `SteppedSimulation::parse`: `ok` with the final state,
`err` for a `Result::Err` surfaced through `?` (a typed failure the
caller receives), `panic` for `panic!` / a failed `unwrap` (a
process-terminating fault). -/
inductive PResult
  | ok (s : SteppedSimulation)
  | err (msg : String)
  | panic (msg : String)
deriving DecidableEq, Repr

/-- Outcome of the binary decode loop: it can only succeed or panic
(all its failures are `unwrap`s); it never produces a typed `Err`. -/
inductive DResult
  | ok (s : SteppedSimulation)
  | panic (msg : String)
deriving DecidableEq, Repr

def optionUnwrapMsg : String := "called Option::unwrap() on a None value"

def resultUnwrapMsg : String := "called Result::unwrap() on an Err value"

/-- Panic message of `Vec::drain` when the range end exceeds the vector
length (line 207; Rust renders the two lengths into the message). -/
def drainMsg : String := "range end index out of range"

def divZeroMsg : String := "attempt to divide with overflow or by zero"

def mismatchMsg : String := "Mismatch between expected and actual SPICE data length."

/- #### Encoding detection (lines 163-195) #### -/

def valuesStr : List Char := "Values".data

def binaryStr : List Char := "Binary".data

def binMarker : List Char := "Binary:\n".data

/-- Lines 166-191: try UTF-8 first, then UTF-16 (little-endian code
units), both lossily; accept the first candidate whose decoded text
contains "Values" or "Binary". -/
def decodeText (buffer : List Nat) : Option (Encoding × List Char) :=
  let d8 := utf8Lossy buffer
  if containsSub valuesStr d8 || containsSub binaryStr d8 then some (.UTF8, d8)
  else
    let d16 := utf16Lossy (leU16s buffer)
    if containsSub valuesStr d16 || containsSub binaryStr d16 then some (.UTF16, d16)
    else none

/- #### Binary layout (lines 275-310) #### -/

def sizeOfType : DataType → Nat
  | .Float32 => 4
  | .Float64 => 8
  | .Complex128 => 16

def U32 : Nat := 2 ^ 32

def U16 : Nat := 2 ^ 16

/-- Wrapping `u32` multiplication (Rust release-mode overflow). -/
def mul32 (a b : Nat) : Nat := a * b % U32

def add32 (a b : Nat) : Nat := (a + b) % U32

/-- Wrapping `u32` subtraction (`self.stats.variables - 1`). -/
def sub32 (a b : Nat) : Nat := (a + U32 - b % U32) % U32

/- #### Payload decode (lines 312-400) #### -/

/-- Source: `f64::from_ne_bytes(bytes.try_into().unwrap())`: the conversion to
`[u8; 8]` succeeds only when exactly 8 bytes were taken; `none` models
the unwrap panic. -/
def decodeF64 (bytes : List Nat) : Option Nat :=
  if bytes.length = 8 then some (leVal bytes) else none

/-- Source: `f32::from_ne_bytes(bytes.try_into().unwrap()) as f64`. -/
def decodeF32 (bytes : List Nat) : Option Nat :=
  if bytes.length = 4 then some (f32ToF64Bits (leVal bytes)) else none

/-- The real/imaginary decode of one sample (lines 323-338 for X,
374-391 for Y; the two blocks are identical).  For `Complex128` BOTH
parts convert the full chunk with `try_into::<[u8; 8]>`, which panics
whenever the chunk is not exactly 8 bytes — in particular on every
full 16-byte complex field. -/
def decodeVal : DataType → List Nat → Option Value
  | .Float32, bytes => (decodeF32 bytes).map fun r => ⟨r, 0⟩
  | .Float64, bytes => (decodeF64 bytes).map fun r => ⟨r, 0⟩
  | .Complex128, bytes => (decodeF64 bytes).map fun r => ⟨r, r⟩

def xKey : List Char := ['x']

/-- Source: `self.data.get_mut("x").unwrap().push(step)`. -/
def pushX (d : Data) (step : List Value) : Data :=
  assocUpdate d xKey (fun l => l ++ [step])

/-- Step-boundary detection (lines 340-347): if the X buffer is nonempty
and its first sample equals the new sample, finalize the current step.
`steps` is `(points / len as u32) as u16`; a `u32` division by zero
panics (only reachable for a buffer of length `≥ 2^32`). -/
def boundaryStep (xBuf : List Value) (xv : Value) (st : SteppedSimulation) :
    Except String (List Value × SteppedSimulation) :=
  match xBuf with
  | [] => .ok ([xv], st)
  | h :: _ =>
    if valueEq h xv then
      if xBuf.length % U32 = 0 then .error divZeroMsg
      else
        .ok ([xv],
          { st with
            stats :=
              { st.stats with
                step_size := xBuf.length % U32
                steps := st.stats.points / (xBuf.length % U32) % U16 }
            data := pushX st.data xBuf })
    else .ok (xBuf ++ [xv], st)

/-- Append one sample to the most recently started step. At every call
site a fresh step was pushed when the outer list was empty, so the `[]`
case is unreachable. -/
def appendLast : List (List Value) → Value → List (List Value)
  | [], v => [[v]]
  | [s], v => [s ++ [v]]
  | s :: rest, v => s :: appendLast rest v

/-- Line 356-357: create the dataset entry if missing. -/
def varEnsure (d : Data) (name : List Char) : Data :=
  if (lookupD d name).isNone then assocInsert d name [] else d

/-- Lines 356-368 and 393: the dataset update for one variable at one
point — ensure the entry, start a new step when the current one is
empty or full (`self.stats.step_size == step_vector.last().unwrap().len()
as u32`), then append the decoded sample to the last step. -/
def varPush (stepSize : Nat) (d : Data) (name : List Char) (yv : Value) : Data :=
  let d1 := varEnsure d name
  let sv := (lookupD d1 name).getD []
  let sv1 :=
    if sv.isEmpty || stepSize == ((sv.getLast?.getD []).length % U32) then sv ++ [[]]
    else sv
  assocInsert d1 name (appendLast sv1 yv)

/-- The per-point Y reads (lines 353-395): for each declared variable in
order, take `y_size` bytes, decode them and store the sample via
`varPush`. -/
def varsStep (yType : DataType) (stepSize : Nat) :
    List SteppedVariable → List Nat → Data → Except String (List Nat × Data)
  | [], buf, d => .ok (buf, d)
  | v :: vs, buf, d =>
    let yData := buf.take (sizeOfType yType)
    let buf1 := buf.drop (sizeOfType yType)
    match decodeVal yType yData with
    | none => .error resultUnwrapMsg
    | some yv => varsStep yType stepSize vs buf1 (varPush stepSize d v.name yv)

/-- The decode configuration: X/Y datatypes and the declared variables,
all fixed before the loop. -/
structure Cfg where
  xType : DataType
  yType : DataType
  vars : List SteppedVariable
deriving DecidableEq, Repr

/-- The `while iterator.len() > 0` loop (lines 317-396) plus the final
flush of the X buffer (line 400).  Fuel = payload length (every
iteration consumes at least one byte). -/
def decodeLoop (cfg : Cfg) : Nat → List Nat → List Value → SteppedSimulation → DResult
  | 0, buf, xBuf, st =>
    if buf.isEmpty then .ok { st with data := pushX st.data xBuf }
    else .panic "out of fuel"
  | fuel + 1, buf, xBuf, st =>
    if buf.isEmpty then .ok { st with data := pushX st.data xBuf }
    else
      let xData := buf.take (sizeOfType cfg.xType)
      let rest := buf.drop (sizeOfType cfg.xType)
      match decodeVal cfg.xType xData with
      | none => .panic resultUnwrapMsg
      | some xv =>
        match boundaryStep xBuf xv st with
        | .error m => .panic m
        | .ok (xBuf1, st1) =>
          match varsStep cfg.yType st1.stats.step_size cfg.vars rest st1.data with
          | .error m => .panic m
          | .ok (buf1, d1) => decodeLoop cfg fuel buf1 xBuf1 { st1 with data := d1 }

/- #### Assembled parse (lines 136-411) #### -/

/-- Everything `parse` computes after the header and before the layout
check: the updated state, the selected X/Y datatypes, and the binary
payload. -/
structure HeaderOut where
  st : SteppedSimulation
  xType : DataType
  yType : DataType
  payload : List Nat
deriving DecidableEq, Repr

inductive HeaderResult
  | fail (r : PResult)
  | ok (h : HeaderOut)
deriving DecidableEq, Repr

/-- The `match self.encoding` at lines 200-205: the code-unit width used
to scale the marker's byte offset. -/
def codeUnitBytes : Encoding → Nat
  | .UTF8 => 1
  | .UTF16 => 2
  | .UTF32 => 4
  | .ASCII => 1

/-- Lines 163-285: decode the text, split header from payload at the
"Binary:\n" marker (a byte offset, scaled by the code-unit width of the
detected encoding), tokenize the header, interpret the recognized fields,
and select the X/Y datatypes from mode and flags.  The non-`Result`
failures are the `panic!("Could not decode file.")` (line 194), the
`data.find(substring).unwrap()` (line 199), and the
`buffer.drain(0..header_length)` (line 207), which panics when
`header_length` exceeds the buffer length — reachable, because the
marker offset is measured in the lossily decoded text, which can be
longer than the raw bytes (an invalid byte becomes the 3-byte U+FFFD,
and the UTF-16 scaling doubles the offset). -/
def processHeader (b : List Nat) : HeaderResult :=
  match decodeText b with
  | none => .fail (.panic "Could not decode file.")
  | some (enc, text) =>
    match findSubChar binMarker text with
    | none => .fail (.panic optionUnwrapMsg)
    | some p =>
      let byteIdx := utf8Len (text.take p)
      let headerLength := (byteIdx + 8) * codeUnitBytes enc
      if headerLength > b.length then .fail (.panic drainMsg)
      else
        let payload := b.drop headerLength
        let headerTxt := text.take (p + 8)
        let fields := toFieldMap (scanFields headerTxt.length headerTxt true)
        match applyFields fields { newSim with encoding := enc } with
        | .error m => .fail (.err m)
        | .ok st =>
          let yBase : DataType := if Flags.Double ∈ st.flags then .Float64 else .Float32
          let complex : Bool := st.mode = Mode.AC || st.mode = Mode.FFT
          let xType : DataType := if complex then .Complex128 else .Float64
          let yType : DataType := if complex then .Complex128 else yBase
          .ok ⟨st, xType, yType, payload⟩

/-- Lines 300-310 and 312-400: the expected-length check (wrapping `u32`
arithmetic, compared against `buffer.len() as u32`), then the decode
loop, entered with `data["x"]` inserted and `step_size` initialized to
the expected length. -/
def finishParse (h : HeaderOut) : PResult :=
  let x_size := sizeOfType h.xType
  let y_size := sizeOfType h.yType
  let y_length := mul32 (mul32 h.st.stats.points (sub32 h.st.stats.variableCount 1)) y_size
  let x_length := mul32 h.st.stats.points x_size
  let expected := add32 x_length y_length
  if expected ≠ h.payload.length % U32 then .err mismatchMsg
  else
    let st1 :=
      { h.st with
        data := assocInsert h.st.data xKey []
        stats := { h.st.stats with step_size := expected } }
    match decodeLoop ⟨h.xType, h.yType, h.st.declaredVars⟩ h.payload.length h.payload [] st1 with
    | .ok s => .ok s
    | .panic m => .panic m

/-- Source: `SteppedSimulation::parse` on the file's byte contents, starting from
the freshly constructed (`new`) state. -/
def parseBytes (b : List Nat) : PResult :=
  match processHeader b with
  | .fail r => r
  | .ok h => finishParse h

/-- The filesystem collaborator's answers about the path: existence,
regular-file, and `Path::extension()` (which is `None` for a path with
no extension at all). -/
structure PathInfo where
  pathExists : Bool
  isFile : Bool
  extension : Option (List Char)
deriving DecidableEq, Repr

def rawExt : List Char := "raw".data

/-- Source: `parse` including the three path checks (lines 139-152), which run
before any byte of the file is read.  Note line 149:
`self.path.extension().unwrap()` panics when the path has no extension. -/
def parseFile (p : PathInfo) (bytes : List Nat) : PResult :=
  if !p.pathExists then .err "File does not exist"
  else if !p.isFile then .err "The specified path is not a file."
  else
    match p.extension with
    | none => .panic optionUnwrapMsg
    | some e =>
      if e ≠ rawExt then .err "The specified path is not a \x27.raw\x27 file."
      else parseBytes bytes

/-- The argument expression of the last `debug!` (lines 405-408):
`self.data.get("V(v_in)").unwrap().last().unwrap().len()`.  It is
evaluated only when a debug-level diagnostics subscriber is installed;
`none` at either step means the corresponding `unwrap` panics. -/
def finalDebugLookup (st : SteppedSimulation) : Option Nat :=
  match lookupD st.data "V(v_in)".data with
  | none => none
  | some steps =>
    match steps.getLast? with
    | none => none
    | some last => some last.length

/- #### Observation helpers for the theorems #### -/

def statsOf : PResult → Option SimulationStats
  | .ok st => some st.stats
  | _ => none

/-- The per-step sample counts of one dataset entry of a parse result. -/
def stepLens (r : PResult) (k : List Char) : Option (List Nat) :=
  match r with
  | .ok st => (lookupD st.data k).map fun l => l.map List.length
  | _ => none

/-- Whether the outcome is a typed `Err` the caller receives (as opposed
to an `Ok` or a panic). -/
def isTypedErr : PResult → Bool
  | .err _ => true
  | _ => false

/-- Source: `some (finalDebugLookup st)` when the parse succeeded with `st`. -/
def finalDebugOfResult : PResult → Option (Option Nat)
  | .ok st => some (finalDebugLookup st)
  | _ => none

def sumLens (l : List (List Value)) : Nat := (l.map List.length).sum

/-- Total number of samples stored for key `k` (0 when absent). -/
def totalOf (d : Data) (k : List Char) : Nat :=
  sumLens ((lookupD d k).getD [])

/-- The successive buffer positions after the per-point Y reads: one
`y_size` drop per declared variable (the byte consumption of
`varsStep`). -/
def dropYs (yType : DataType) : List SteppedVariable → List Nat → List Nat
  | [], buf => buf
  | _ :: vs, buf => dropYs yType vs (buf.drop (sizeOfType yType))

/-- The sequence of X samples the decode loop reads from a payload
(stopping early at a decode panic, in which case the loop also stops). -/
def xSeq (cfg : Cfg) : Nat → List Nat → List Value
  | 0, _ => []
  | fuel + 1, buf =>
    if buf.isEmpty then []
    else
      match decodeVal cfg.xType (buf.take (sizeOfType cfg.xType)) with
      | none => []
      | some xv =>
        xv :: xSeq cfg fuel (dropYs cfg.yType cfg.vars (buf.drop (sizeOfType cfg.xType)))

/-- Source: `noTrigger h xs = true` iff scanning `xs` with current buffer head `h`
never meets a sample equal (in the source's `Value` equality) to the
head — i.e. the step-boundary test of line 342 never fires. -/
def noTrigger : Option Value → List Value → Bool
  | _, [] => true
  | none, x :: rest => noTrigger (some x) rest
  | some h, x :: rest => !valueEq h x && noTrigger (some h) rest

/- #### Concrete inputs for the claims #### -/

def strBytes (s : String) : List Nat := s.data.map Char.toNat

/-- The value 0.0 as 8 little-endian `f64` bytes. -/
def d0Bytes : List Nat := [0, 0, 0, 0, 0, 0, 0, 0]

/-- The value 1.0 as 8 little-endian `f64` bytes (0x3FF0000000000000). -/
def d1Bytes : List Nat := [0, 0, 0, 0, 0, 0, 240, 63]

/-- The value 2.0 as 8 little-endian `f64` bytes (0x4000000000000000). -/
def d2Bytes : List Nat := [0, 0, 0, 0, 0, 0, 0, 64]

/-- One 4-byte `f32` Y sample. -/
def y4Bytes : List Nat := [0, 0, 0, 0]

/-- Boundary-scenario file: point_count 6, variable_count 2 (one
dependent variable "V(a)"), default Transient mode, no flags; X doubles
`[0,1,2,0,1,2]` interleaved with one 4-byte Y sample per point. -/
def c1bytes : List Nat :=
  strBytes "No. Points: 6\nNo. Variables: 2\nVariables:\n0 V(a) voltage\nBinary:\n" ++
    (d0Bytes ++ y4Bytes ++ d1Bytes ++ y4Bytes ++ d2Bytes ++ y4Bytes ++
      d0Bytes ++ y4Bytes ++ d1Bytes ++ y4Bytes ++ d2Bytes ++ y4Bytes)

def varAKey : List Char := "V(a)".data

/-- Drift file: point_count 5, X doubles `[0,1,0,1,2]` — the step
boundary fires after two samples, so the detected steps have unequal
lengths (2 and 3). -/
def c2bytes : List Nat :=
  strBytes "No. Points: 5\nNo. Variables: 2\nVariables:\n0 V(a) voltage\nBinary:\n" ++
    (d0Bytes ++ y4Bytes ++ d1Bytes ++ y4Bytes ++ d0Bytes ++ y4Bytes ++
      d1Bytes ++ y4Bytes ++ d2Bytes ++ y4Bytes)

/-- AC-mode file: `Plotname:AC Analysis` (no space after the colon, so
the whole-string Plotname match fires), 1 point, one dependent variable,
and a well-formed 32-byte complex payload (16 bytes X + 16 bytes Y). -/
def c3bytes : List Nat :=
  strBytes "Plotname:AC Analysis\nNo. Points: 1\nNo. Variables: 2\nVariables:\n0 V(a) voltage\nBinary:\n" ++
    List.replicate 32 7

/-- Bytes that decode (lossily, under UTF-8 and UTF-16) to text without
"Values" or "Binary". -/
def c4bytes : List Nat := strBytes "hello"

/-- Bytes whose UTF-8 decoding contains "Binary" but not the
boundary marker "Binary:\x0A". -/
def c5bytes : List Nat := strBytes "Binaryx"

/-- The boundary-scenario header with a 71-byte payload: one byte short
of the expected 72. -/
def c6bytes : List Nat :=
  strBytes "No. Points: 6\nNo. Variables: 2\nVariables:\n0 V(a) voltage\nBinary:\n" ++
    List.replicate 71 0

/-- Drain-overflow probe (40 bytes): the header is ASCII except one
invalid byte 0xFF, which the lossy UTF-8 decode replaces with the
3-byte U+FFFD; the marker's byte offset in the decoded text is then 34,
so `header_length` is 42 and exceeds the file's 40 bytes — line 207's
`buffer.drain(0..header_length)` panics before the layout check,
although the declared layout (expected 72 payload bytes, none present)
does not match. -/
def c6probe : List Nat :=
  strBytes "No. Variables: 2\nNo. Points: 6\n" ++ [255] ++ strBytes "Binary:\n"

/-- Single-sweep file: 1 point, one dependent variable; the X sequence
has no repeated first sample, so no step boundary is ever detected. -/
def c10bytes : List Nat :=
  strBytes "No. Points: 1\nNo. Variables: 2\nVariables:\n0 V(a) voltage\nBinary:\n" ++
    (d0Bytes ++ y4Bytes)

/-- Extract the header phase output (total helper for witnesses; the
default is only returned on the failure path). -/
def okHeader : HeaderResult → HeaderOut
  | .ok h => h
  | .fail _ => ⟨newSim, .Float64, .Float32, []⟩

/-- Extract the parsed state (total helper for witnesses). -/
def okSim : PResult → SteppedSimulation
  | .ok s => s
  | _ => newSim

/- ####################  Theorems  #################### -/

set_option maxRecDepth 100000

/-- Claim C1: parsing a file whose header declares point_count 6 and
variable_count 2 (one dependent variable), non-complex mode and no
Double flag, with X sequence [0,1,2,0,1,2] as 8-byte doubles interleaved
with one 4-byte Y sample per point, succeeds with `stats.steps = 2` and
`stats.step_size = 3`, and both the "x" entry and the dependent
variable's entry hold exactly two steps of 3 samples each. -/
theorem c1_boundary_scenario :
    (statsOf (parseBytes c1bytes)).map SimulationStats.steps = some 2 ∧
    (statsOf (parseBytes c1bytes)).map SimulationStats.step_size = some 3 ∧
    stepLens (parseBytes c1bytes) xKey = some [3, 3] ∧
    stepLens (parseBytes c1bytes) varAKey = some [3, 3] := by
  refine ⟨by decide, by decide, by decide, by decide⟩

/-- Claim C2, counterexample: on the drift file the parse succeeds, yet
the dependent variable's entry holds 3 steps while the "x" entry holds 2
— the per-variable step count does not equal x's. -/
theorem c2_counterexample :
    (stepLens (parseBytes c2bytes) varAKey).map List.length = some 3 ∧
    (stepLens (parseBytes c2bytes) xKey).map List.length = some 2 := by
  refine ⟨by decide, by decide⟩

/-- Claim C3 (code bug): on a well-formed complex payload (mode AC, one
point, 16-byte X and Y fields) the parse does not decode the two 8-byte
halves — it panics, because both the real and the imaginary decode pass
the full 16-byte chunk to `try_into::<[u8; 8]>` (lines 326/331/379/384),
which fails for any length other than 8. -/
theorem c3_complex_panic :
    parseBytes c3bytes = PResult.panic resultUnwrapMsg := by decide

/-- Claim C4, counterexample: for bytes neither of whose lossy decodings
contains "Values" or "Binary", parse does not return a typed failure
result — it executes `panic!("Could not decode file.")` (line 194). -/
theorem c4_counterexample :
    parseBytes c4bytes = PResult.panic "Could not decode file." ∧
    isTypedErr (parseBytes c4bytes) = false := by
  refine ⟨by decide, by decide⟩

/-- Claim C5, counterexample: for bytes whose decoded text contains
"Binary" but not the marker "Binary:\x0A", parse does not return a typed
failure — the `data.find(substring).unwrap()` at line 199 panics. -/
theorem c5_counterexample :
    parseBytes c5bytes = PResult.panic optionUnwrapMsg ∧
    isTypedErr (parseBytes c5bytes) = false := by
  refine ⟨by decide, by decide⟩

/-- Claim C7 (code bug): a path that exists and is a regular file but has
no extension at all does not produce the `InvalidSource` typed error —
`self.path.extension().unwrap()` (line 149) panics.  The other two
conditions do yield typed errors, before any byte of the file is read. -/
theorem c7_no_extension_panics :
    parseFile ⟨true, true, none⟩ [] = PResult.panic optionUnwrapMsg ∧
    parseFile ⟨false, true, some rawExt⟩ [] = PResult.err "File does not exist" ∧
    parseFile ⟨true, false, some rawExt⟩ [] = PResult.err "The specified path is not a file." ∧
    parseFile ⟨true, true, some "txt".data⟩ [] =
      PResult.err "The specified path is not a \x27.raw\x27 file." := by
  refine ⟨by decide, by decide, by decide, by decide⟩

/-- Claim C8, counterexample: a Flags value of "real stepped" sets
neither the Real nor the Stepped flag, because the match at lines 243-248
compares the entire value string against one flag name. -/
theorem c8_counterexample :
    ¬ (Flags.Real ∈ flagsOfValue "real stepped".data ∧
       Flags.Stepped ∈ flagsOfValue "real stepped".data) := by decide

/-- Claim C8, amended: each Flags value is matched as a whole string —
exactly "stepped", "real" or "double" sets the one corresponding flag,
and any other value (including the multi-token "real stepped") sets no
flag at all. -/
theorem c8_flags_whole_value :
    flagsOfValue "stepped".data = [Flags.Stepped] ∧
    flagsOfValue "real".data = [Flags.Real] ∧
    flagsOfValue "double".data = [Flags.Double] ∧
    flagsOfValue "real stepped".data = [] ∧
    flagsOfValue "real double".data = [] := by
  refine ⟨by decide, by decide, by decide, by decide, by decide⟩

/-- Claim C9 (code bug): on a successfully parsed file that declares no
variable named "V(v_in)", the final `debug!` argument expression
`self.data.get("V(v_in)").unwrap()...` (lines 405-408) evaluates to a
`None` unwrap — evaluating the log expression panics whenever a
debug-level subscriber is active, so diagnostics emission is not purely
observational. -/
theorem c9_debug_lookup_fails :
    finalDebugOfResult (parseBytes c1bytes) = some none := by decide

/-- Claim C4, amended: for every input whose bytes, decoded lossily as
UTF-8 and as little-endian UTF-16, contain neither "Values" nor
"Binary", the parse fails by a panic with message "Could not decode
file." — a process-terminating fault, not a typed failure result
returned to the caller. -/
theorem c4_undecodable_panics (b : List Nat) (hd : decodeText b = none) :
    parseBytes b = PResult.panic "Could not decode file." := by
  simp [parseBytes, processHeader, hd]

/-- Claim C4, witness: the amended statement at the bytes of "hello". -/
theorem c4_undecodable_witness :
    parseBytes c4bytes = PResult.panic "Could not decode file." :=
  c4_undecodable_panics c4bytes (by decide)

/-- Claim C5, amended: for every input accepted by an encoding candidate
whose decoded text lacks the marker "Binary:\x0A", the parse fails by a
panic (the unwrap of `data.find(substring)`, line 199) — not by a typed
`MissingBoundaryMarker` failure result, and without guessing a
boundary. -/
theorem c5_marker_missing_panics (b : List Nat) (enc : Encoding) (text : List Char)
    (hd : decodeText b = some (enc, text))
    (hm : findSubChar binMarker text = none) :
    parseBytes b = PResult.panic optionUnwrapMsg := by
  simp [parseBytes, processHeader, hd, hm]

/-- Claim C5, witness: the amended statement at the bytes of "Binaryx". -/
theorem c5_marker_missing_witness :
    parseBytes c5bytes = PResult.panic optionUnwrapMsg :=
  c5_marker_missing_panics c5bytes Encoding.UTF8 "Binaryx".data (by decide) (by decide)

/- #### Header-phase preservation lemmas #### -/

/-- A single recognized-field action never touches `steps`, `step_size`
or the dataset. -/
theorem applyField_preserves (st : SteppedSimulation) (k v : List Char)
    (st2 : SteppedSimulation) (h : applyField st k v = .ok st2) :
    st2.stats.steps = st.stats.steps ∧ st2.stats.step_size = st.stats.step_size ∧
      st2.data = st.data := by
  unfold applyField at h
  split_ifs at h <;>
    first
      | (injection h with h2; subst h2; exact ⟨rfl, rfl, rfl⟩)
      | (split at h <;>
          first
            | (injection h with h2; subst h2; exact ⟨rfl, rfl, rfl⟩)
            | simp_all)

theorem applyFields_preserves (fs : List (List Char × List Char)) :
    ∀ st st2, applyFields fs st = .ok st2 →
      st2.stats.steps = st.stats.steps ∧ st2.stats.step_size = st.stats.step_size ∧
        st2.data = st.data := by
  induction fs with
  | nil =>
    intro st st2 h
    injection h with h2
    subst h2
    exact ⟨rfl, rfl, rfl⟩
  | cons kv rest ih =>
    intro st st2 h
    unfold applyFields at h
    split at h
    · exact absurd h (by simp)
    · rename_i stMid heq
      obtain ⟨a1, a2, a3⟩ := applyField_preserves st kv.1 kv.2 stMid heq
      obtain ⟨b1, b2, b3⟩ := ih stMid st2 h
      exact ⟨b1.trans a1, b2.trans a2, b3.trans a3⟩

/-- The header phase starts from the fresh state, so a successful header
leaves `steps = 0`, `step_size = 0` and an empty dataset. -/
theorem processHeader_fresh (b : List Nat) (h : HeaderOut)
    (hh : processHeader b = HeaderResult.ok h) :
    h.st.stats.steps = 0 ∧ h.st.stats.step_size = 0 ∧ h.st.data = [] := by
  unfold processHeader at hh
  split at hh
  · simp at hh
  · split at hh
    · simp at hh
    · dsimp only [] at hh
      split at hh
      · simp at hh
      · split at hh
        · simp at hh
        · rename_i st heq
          simp only [HeaderResult.ok.injEq] at hh
          subst hh
          simpa [newSim] using applyFields_preserves _ _ _ heq

/-- Claim C6, counterexample: on the drain-overflow probe the header
declares point_count 6 and variable_count 2 (expected payload 72 bytes)
while the file ends inside the scaled marker offset, leaving no payload
at all — a mismatch — yet parse does not fail with the layout-mismatch
error: it panics at `buffer.drain` (line 207) before the length check
is ever reached. -/
theorem c6_counterexample :
    parseBytes c6probe = PResult.panic drainMsg ∧
    parseBytes c6probe ≠ PResult.err mismatchMsg := by
  refine ⟨by decide, by decide⟩

/-- Claim C6, amended: provided the header/payload split itself succeeds
(the scaled marker byte offset stays within the file, otherwise the
`Vec::drain` at line 207 panics first), the header declares at least one
variable, and the expected-length formula and the payload length are
below `2^32` (the check compares `u32` values — `expected_length !=
buffer.len() as u32` — so a payload exceeding the expected length by a
multiple of `2^32` would be accepted silently), the parse fails with the
layout-mismatch error exactly when
`point_count * x_width + point_count * (variable_count - 1) * y_width`
differs from the payload byte length; on a mismatch the result is the
typed error (no state, so no samples are decoded and nothing is
truncated or padded). -/
theorem c6_layout_mismatch_iff (b : List Nat) (h : HeaderOut)
    (hh : processHeader b = HeaderResult.ok h)
    (h1 : 1 ≤ h.st.stats.variableCount)
    (hvc : h.st.stats.variableCount < 2 ^ 32)
    (hsmall : h.st.stats.points * sizeOfType h.xType +
        h.st.stats.points * (h.st.stats.variableCount - 1) * sizeOfType h.yType < 2 ^ 32)
    (hlen : h.payload.length < 2 ^ 32) :
    parseBytes b = PResult.err mismatchMsg ↔
      h.st.stats.points * sizeOfType h.xType +
          h.st.stats.points * (h.st.stats.variableCount - 1) * sizeOfType h.yType ≠
        h.payload.length := by
  have hpb : parseBytes b = finishParse h := by
    unfold parseBytes
    rw [hh]
  have hy1 : 1 ≤ sizeOfType h.yType := by cases h.yType <;> decide
  have hbx : h.st.stats.points * sizeOfType h.xType < 2 ^ 32 :=
    lt_of_le_of_lt (Nat.le_add_right _ _) hsmall
  have hby :
      h.st.stats.points * (h.st.stats.variableCount - 1) * sizeOfType h.yType < 2 ^ 32 :=
    lt_of_le_of_lt (Nat.le_add_left _ _) hsmall
  have hbv : h.st.stats.points * (h.st.stats.variableCount - 1) < 2 ^ 32 := by
    calc h.st.stats.points * (h.st.stats.variableCount - 1)
        = h.st.stats.points * (h.st.stats.variableCount - 1) * 1 := (mul_one _).symm
      _ ≤ h.st.stats.points * (h.st.stats.variableCount - 1) * sizeOfType h.yType :=
          Nat.mul_le_mul_left _ hy1
      _ < 2 ^ 32 := hby
  have e1 : sub32 h.st.stats.variableCount 1 = h.st.stats.variableCount - 1 := by
    unfold sub32 U32
    omega
  have e2 :
      mul32 h.st.stats.points (h.st.stats.variableCount - 1) =
        h.st.stats.points * (h.st.stats.variableCount - 1) := by
    unfold mul32 U32
    exact Nat.mod_eq_of_lt hbv
  have e3 :
      mul32 (h.st.stats.points * (h.st.stats.variableCount - 1)) (sizeOfType h.yType) =
        h.st.stats.points * (h.st.stats.variableCount - 1) * sizeOfType h.yType := by
    unfold mul32 U32
    exact Nat.mod_eq_of_lt hby
  have e4 : mul32 h.st.stats.points (sizeOfType h.xType) =
      h.st.stats.points * sizeOfType h.xType := by
    unfold mul32 U32
    exact Nat.mod_eq_of_lt hbx
  have e5 :
      add32 (h.st.stats.points * sizeOfType h.xType)
          (h.st.stats.points * (h.st.stats.variableCount - 1) * sizeOfType h.yType) =
        h.st.stats.points * sizeOfType h.xType +
          h.st.stats.points * (h.st.stats.variableCount - 1) * sizeOfType h.yType := by
    unfold add32 U32
    exact Nat.mod_eq_of_lt hsmall
  have e6 : h.payload.length % U32 = h.payload.length := by
    unfold U32
    exact Nat.mod_eq_of_lt hlen
  rw [hpb]
  unfold finishParse
  simp only [e1, e2, e3, e4, e5, e6]
  split
  · rename_i hcond
    simp [hcond]
  · rename_i hcond
    split <;> simp [hcond]

/-- Claim C6, witness: the boundary-scenario header (expected length
6*8 + 6*1*4 = 72) with a 71-byte payload fails with the layout-mismatch
error. -/
theorem c6_layout_mismatch_witness :
    parseBytes c6bytes = PResult.err mismatchMsg :=
  (c6_layout_mismatch_iff c6bytes (okHeader (processHeader c6bytes))
    (by decide) (by decide) (by decide) (by decide) (by decide)).mpr (by decide)

/- #### Decode-loop lemmas #### -/

/-- A successful per-point Y pass consumes exactly `y_size` bytes per
declared variable. -/
theorem varsStep_buf (yType : DataType) (ss : Nat) :
    ∀ (vs : List SteppedVariable) (buf : List Nat) (d : Data) (buf1 : List Nat) (d1 : Data),
      varsStep yType ss vs buf d = .ok (buf1, d1) → buf1 = dropYs yType vs buf := by
  intro vs
  induction vs with
  | nil =>
    intro buf d buf1 d1 h
    simp only [varsStep, Except.ok.injEq, Prod.mk.injEq] at h
    simp [dropYs, ← h.1]
  | cons v vs ih =>
    intro buf d buf1 d1 h
    unfold varsStep at h
    dsimp only [] at h
    split at h
    · exact absurd h (by simp)
    · rename_i yv heq
      simpa [dropYs] using ih _ _ _ _ h

/-- If the boundary test never fires along the X sequence, the loop
leaves the stats untouched (it only ever writes `step_size`/`steps`
inside the fired branch). -/
theorem decodeLoop_noTrigger (cfg : Cfg) :
    ∀ (fuel : Nat) (buf : List Nat) (xBuf : List Value) (st st1 : SteppedSimulation),
      decodeLoop cfg fuel buf xBuf st = DResult.ok st1 →
      noTrigger xBuf.head? (xSeq cfg fuel buf) = true →
      st1.stats = st.stats := by
  intro fuel
  induction fuel with
  | zero =>
    intro buf xBuf st st1 hloop hnt
    unfold decodeLoop at hloop
    split at hloop
    · injection hloop with h2
      subst h2
      rfl
    · exact absurd hloop (by simp)
  | succ fuel ih =>
    intro buf xBuf st st1 hloop hnt
    unfold decodeLoop at hloop
    split at hloop
    · injection hloop with h2
      subst h2
      rfl
    · rename_i hne
      dsimp only [] at hloop
      split at hloop
      · exact absurd hloop (by simp)
      · rename_i xv hxv
        split at hloop
        · exact absurd hloop (by simp)
        · rename_i xBuf1 st2 hbs
          split at hloop
          · exact absurd hloop (by simp)
          · rename_i buf1 d1 hvs
            simp only [xSeq, hxv, if_neg hne] at hnt
            have hbuf1 : buf1 = dropYs cfg.yType cfg.vars (buf.drop (sizeOfType cfg.xType)) :=
              varsStep_buf _ _ _ _ _ _ _ hvs
            cases xBuf with
            | nil =>
              unfold boundaryStep at hbs
              simp only [Except.ok.injEq, Prod.mk.injEq] at hbs
              obtain ⟨hb1, hb2⟩ := hbs
              subst hb2
              simp only [List.head?, noTrigger] at hnt
              have := ih buf1 xBuf1 _ st1 hloop (by rw [hbuf1, ← hb1]; simpa using hnt)
              simpa using this
            | cons hd tl =>
              simp only [List.head?, noTrigger, Bool.and_eq_true, Bool.not_eq_true'] at hnt
              unfold boundaryStep at hbs
              dsimp only [] at hbs
              rw [hnt.1] at hbs
              simp only [Bool.false_eq_true, if_false, Except.ok.injEq, Prod.mk.injEq] at hbs
              obtain ⟨hb1, hb2⟩ := hbs
              subst hb2
              have := ih buf1 xBuf1 _ st1 hloop
                (by rw [hbuf1, ← hb1]; simpa using hnt.2)
              simpa using this

/-- Claim C10: for a successfully parsed file on which the
step-boundary test never fires (no X sample compares equal, in the
source's exact `Value` equality, to the first sample of the sweep being
built), `stats.steps` stays 0 and `stats.step_size` stays the full
payload byte length — not the sample count of the single step that is
still flushed into the dataset. -/
theorem c10_single_sweep_stats (b : List Nat) (h : HeaderOut) (st : SteppedSimulation)
    (hh : processHeader b = HeaderResult.ok h)
    (hp : parseBytes b = PResult.ok st)
    (hnt : noTrigger none
      (xSeq ⟨h.xType, h.yType, h.st.declaredVars⟩ h.payload.length h.payload) = true)
    (hlen : h.payload.length < 2 ^ 32) :
    st.stats.steps = 0 ∧ st.stats.step_size = h.payload.length := by
  have hpb : parseBytes b = finishParse h := by
    unfold parseBytes
    rw [hh]
  rw [hpb] at hp
  unfold finishParse at hp
  dsimp only [] at hp
  split at hp
  · exact absurd hp (by simp)
  · rename_i hcond
    split at hp
    · rename_i s hdl
      injection hp with hp2
      subst hp2
      have hstats := decodeLoop_noTrigger _ _ _ _ _ _ hdl (by simpa using hnt)
      obtain ⟨z1, z2, z3⟩ := processHeader_fresh b h hh
      have hexp : h.payload.length % U32 = h.payload.length := by
        unfold U32
        exact Nat.mod_eq_of_lt hlen
      rw [not_ne_iff] at hcond
      refine ⟨?_, ?_⟩
      · rw [hstats]
        exact z1
      · rw [hstats]
        dsimp only []
        rw [hcond, hexp]
    · exact absurd hp (by simp)

/- #### Dataset bookkeeping lemmas (for the totals invariant) #### -/

theorem lookupD_assocInsert_self (d : Data) (k : List Char) (v : List (List Value)) :
    lookupD (assocInsert d k v) k = some v := by
  induction d with
  | nil => simp [assocInsert, lookupD]
  | cons kv r ih =>
    obtain ⟨k2, w⟩ := kv
    by_cases hk : k2 = k
    · simp [assocInsert, lookupD, hk]
    · simp [assocInsert, lookupD, hk, ih]

theorem lookupD_assocInsert_ne (d : Data) (k k2 : List Char) (v : List (List Value))
    (h : k2 ≠ k) : lookupD (assocInsert d k v) k2 = lookupD d k2 := by
  have hk : ¬ k = k2 := fun he => h he.symm
  induction d with
  | nil => simp [assocInsert, lookupD, hk]
  | cons kv r ih =>
    obtain ⟨k3, w⟩ := kv
    by_cases h3 : k3 = k
    · subst h3
      simp [assocInsert, lookupD, hk]
    · simp [assocInsert, lookupD, h3, ih]

theorem lookupD_assocUpdate_ne (d : Data) (k k2 : List Char)
    (f : List (List Value) → List (List Value)) (h : k2 ≠ k) :
    lookupD (assocUpdate d k f) k2 = lookupD d k2 := by
  have hk : ¬ k = k2 := fun he => h he.symm
  induction d with
  | nil => simp [assocUpdate, lookupD]
  | cons kv r ih =>
    obtain ⟨k3, w⟩ := kv
    by_cases h3 : k3 = k
    · subst h3
      simp [assocUpdate, lookupD, hk]
    · simp [assocUpdate, lookupD, h3, ih]

theorem lookupD_assocUpdate_self (d : Data) (k : List Char)
    (f : List (List Value) → List (List Value)) :
    lookupD (assocUpdate d k f) k = (lookupD d k).map f := by
  induction d with
  | nil => simp [assocUpdate, lookupD]
  | cons kv r ih =>
    obtain ⟨k2, w⟩ := kv
    by_cases hk : k2 = k
    · simp [assocUpdate, lookupD, hk]
    · simp [assocUpdate, lookupD, hk, ih]

theorem sumLens_append_one (l : List (List Value)) (s : List Value) :
    sumLens (l ++ [s]) = sumLens l + s.length := by
  simp [sumLens]

theorem sumLens_appendLast (l : List (List Value)) (v : Value) :
    sumLens (appendLast l v) = sumLens l + 1 := by
  induction l with
  | nil => simp [appendLast, sumLens]
  | cons s rest ih =>
    cases rest with
    | nil => simp [appendLast, sumLens]
    | cons s2 r2 =>
      simp only [appendLast] at ih ⊢
      simp only [sumLens, List.map_cons, List.sum_cons] at ih ⊢
      omega

/-- Source: `totalOf` of a key the x-flush does not touch. -/
theorem totalOf_pushX_ne (d : Data) (s : List Value) (k : List Char) (h : k ≠ xKey) :
    totalOf (pushX d s) k = totalOf d k := by
  unfold totalOf pushX
  rw [lookupD_assocUpdate_ne _ _ _ _ h]

/-- Source: `totalOf` of the x entry after a flush, when the entry exists. -/
theorem totalOf_pushX_self (d : Data) (s : List Value) (w : List (List Value))
    (h : lookupD d xKey = some w) :
    totalOf (pushX d s) xKey = totalOf d xKey + s.length := by
  unfold totalOf pushX
  rw [lookupD_assocUpdate_self, h]
  simpa using sumLens_append_one w s

theorem pushX_isSome (d : Data) (s : List Value)
    (h : (lookupD d xKey).isSome = true) : (lookupD (pushX d s) xKey).isSome = true := by
  unfold pushX
  rw [lookupD_assocUpdate_self]
  simpa using h

/-- Source: `varPush` leaves every other key's entry unchanged. -/
theorem lookupD_varPush_ne (ss : Nat) (d : Data) (name k : List Char) (yv : Value)
    (h : k ≠ name) : lookupD (varPush ss d name yv) k = lookupD d k := by
  unfold varPush varEnsure
  dsimp only []
  rw [lookupD_assocInsert_ne _ _ _ _ h]
  split
  · rw [lookupD_assocInsert_ne _ _ _ _ h]
  · rfl

/-- Source: `varPush` adds exactly one sample to its variable's total. -/
theorem totalOf_varPush_self (ss : Nat) (d : Data) (name : List Char) (yv : Value) :
    totalOf (varPush ss d name yv) name = totalOf d name + 1 := by
  unfold totalOf varPush
  rw [lookupD_assocInsert_self]
  simp only [Option.getD_some]
  rw [sumLens_appendLast]
  have hsv1 :
      sumLens (if ((lookupD (varEnsure d name) name).getD []).isEmpty ||
          (ss == (((lookupD (varEnsure d name) name).getD []).getLast?.getD []).length % U32)
        then ((lookupD (varEnsure d name) name).getD []) ++ [[]]
        else ((lookupD (varEnsure d name) name).getD [])) =
      sumLens ((lookupD (varEnsure d name) name).getD []) := by
    split
    · rw [sumLens_append_one]
      rfl
    · rfl
  rw [hsv1]
  unfold varEnsure
  by_cases hmiss : (lookupD d name).isNone = true
  · rw [Option.isNone_iff_eq_none] at hmiss
    rw [if_pos (by rw [hmiss]; rfl), lookupD_assocInsert_self, hmiss]
    rfl
  · rw [if_neg (by simpa using hmiss)]

/-- Source: `varPush` keeps its variable's entry present. -/
theorem varPush_isSome (ss : Nat) (d : Data) (name k : List Char) (yv : Value)
    (h : (lookupD d k).isSome = true) :
    (lookupD (varPush ss d name yv) k).isSome = true := by
  by_cases hk : k = name
  · subst hk
    unfold varPush
    rw [lookupD_assocInsert_self]
    rfl
  · rw [lookupD_varPush_ne _ _ _ _ _ hk]
    exact h

/-- A successful per-point Y pass leaves every key outside the processed
variable names untouched. -/
theorem varsStep_lookup_ne (yType : DataType) (ss : Nat) (k : List Char) :
    ∀ (vs : List SteppedVariable) (buf : List Nat) (d : Data) (buf1 : List Nat) (d1 : Data),
      varsStep yType ss vs buf d = .ok (buf1, d1) →
      (∀ w ∈ vs, w.name ≠ k) →
      lookupD d1 k = lookupD d k := by
  intro vs
  induction vs with
  | nil =>
    intro buf d buf1 d1 h hk
    simp only [varsStep, Except.ok.injEq, Prod.mk.injEq] at h
    rw [← h.2]
  | cons v vs ih =>
    intro buf d buf1 d1 h hk
    unfold varsStep at h
    dsimp only [] at h
    split at h
    · exact absurd h (by simp)
    · rename_i yv heq
      have hvk : k ≠ v.name := fun he => hk v (List.mem_cons_self _ _) he.symm
      rw [ih _ _ _ _ h fun w hw => hk w (List.mem_cons_of_mem _ hw)]
      rw [lookupD_varPush_ne _ _ _ _ _ hvk]

/-- A successful per-point Y pass adds exactly one sample to each
(uniquely named) processed variable's total. -/
theorem varsStep_total_mem (yType : DataType) (ss : Nat) :
    ∀ (vs : List SteppedVariable) (buf : List Nat) (d : Data) (buf1 : List Nat) (d1 : Data),
      varsStep yType ss vs buf d = .ok (buf1, d1) →
      (vs.map SteppedVariable.name).Nodup →
      ∀ v ∈ vs, totalOf d1 v.name = totalOf d v.name + 1 := by
  intro vs
  induction vs with
  | nil =>
    intro buf d buf1 d1 h hnd v hv
    exact absurd hv (by simp)
  | cons w ws ih =>
    intro buf d buf1 d1 h hnd v hv
    have hndtl : (ws.map SteppedVariable.name).Nodup := (List.nodup_cons.mp hnd).2
    have hwnotin : w.name ∉ ws.map SteppedVariable.name := (List.nodup_cons.mp hnd).1
    unfold varsStep at h
    dsimp only [] at h
    split at h
    · exact absurd h (by simp)
    · rename_i yv heq
      rcases List.mem_cons.mp hv with hvw | hvtl
      · subst hvw
        have huntouched := varsStep_lookup_ne yType ss v.name ws _ _ _ _ h
          (fun u hu hne => hwnotin (hne ▸ List.mem_map_of_mem SteppedVariable.name hu))
        calc totalOf d1 v.name
            = totalOf (varPush ss d v.name yv) v.name := by unfold totalOf; rw [huntouched]
          _ = totalOf d v.name + 1 := totalOf_varPush_self ss d v.name yv
      · have hvw : v.name ≠ w.name := by
          intro he
          exact hwnotin (he ▸ List.mem_map_of_mem SteppedVariable.name hvtl)
        have := ih _ _ _ _ h hndtl v hvtl
        rw [this]
        unfold totalOf
        rw [lookupD_varPush_ne _ _ _ _ _ hvw]

/-- What a successful boundary check does to the dataset and the X
buffer: either nothing fires (the buffer grows by one) or the buffer is
flushed as a step of the x entry (and the new buffer holds the one new
sample). -/
theorem boundaryStep_cases (xBuf : List Value) (xv : Value) (st : SteppedSimulation)
    (xBuf1 : List Value) (st2 : SteppedSimulation)
    (h : boundaryStep xBuf xv st = .ok (xBuf1, st2)) :
    (st2.data = st.data ∧ st2.stats = st.stats ∧ xBuf1.length = xBuf.length + 1) ∨
    (st2.data = pushX st.data xBuf ∧ xBuf1.length = 1) := by
  cases xBuf with
  | nil =>
    unfold boundaryStep at h
    simp only [Except.ok.injEq, Prod.mk.injEq] at h
    obtain ⟨h1, h2⟩ := h
    subst h2
    left
    simp [← h1]
  | cons hd tl =>
    unfold boundaryStep at h
    dsimp only [] at h
    split at h
    · split at h
      · exact absurd h (by simp)
      · simp only [Except.ok.injEq, Prod.mk.injEq] at h
        obtain ⟨h1, h2⟩ := h
        subst h2
        right
        simp [← h1]
    · simp only [Except.ok.injEq, Prod.mk.injEq] at h
      obtain ⟨h1, h2⟩ := h
      subst h2
      left
      simp [← h1]

/-- The totals invariant of the decode loop: a successful run adds the
same number of samples (one per point) to each uniquely named declared
variable as it adds, across steps plus the live buffer, to the x
entry. -/
theorem decodeLoop_totals (cfg : Cfg) (v : SteppedVariable)
    (hv : v ∈ cfg.vars)
    (hnd : (cfg.vars.map SteppedVariable.name).Nodup)
    (hnx : ∀ w ∈ cfg.vars, w.name ≠ xKey) :
    ∀ (fuel : Nat) (buf : List Nat) (xBuf : List Value) (st st1 : SteppedSimulation),
      decodeLoop cfg fuel buf xBuf st = DResult.ok st1 →
      (lookupD st.data xKey).isSome = true →
      totalOf st1.data v.name + totalOf st.data xKey + xBuf.length
        = totalOf st.data v.name + totalOf st1.data xKey := by
  have hvx : v.name ≠ xKey := hnx v hv
  intro fuel
  induction fuel with
  | zero =>
    intro buf xBuf st st1 hloop hx
    unfold decodeLoop at hloop
    split at hloop
    · injection hloop with h2
      subst h2
      obtain ⟨w, hw⟩ := Option.isSome_iff_exists.mp hx
      dsimp only []
      rw [totalOf_pushX_ne _ _ _ hvx, totalOf_pushX_self _ _ _ hw]
      omega
    · exact absurd hloop (by simp)
  | succ fuel ih =>
    intro buf xBuf st st1 hloop hx
    unfold decodeLoop at hloop
    split at hloop
    · injection hloop with h2
      subst h2
      obtain ⟨w, hw⟩ := Option.isSome_iff_exists.mp hx
      dsimp only []
      rw [totalOf_pushX_ne _ _ _ hvx, totalOf_pushX_self _ _ _ hw]
      omega
    · rename_i hne
      dsimp only [] at hloop
      split at hloop
      · exact absurd hloop (by simp)
      · rename_i xv hxv
        split at hloop
        · exact absurd hloop (by simp)
        · rename_i xBuf1 st2 hbs
          split at hloop
          · exact absurd hloop (by simp)
          · rename_i buf1 d1 hvs
            have hv1 := varsStep_total_mem cfg.yType st2.stats.step_size cfg.vars _ _ _ _
              hvs hnd v hv
            have hvx2 := varsStep_lookup_ne cfg.yType st2.stats.step_size xKey cfg.vars
              _ _ _ _ hvs hnx
            rcases boundaryStep_cases xBuf xv st xBuf1 st2 hbs with
              ⟨hb1, _, hb3⟩ | ⟨hb1, hb3⟩
            · have hx2 : (lookupD d1 xKey).isSome = true := by
                rw [hvx2, hb1]
                exact hx
              have hrec := ih buf1 xBuf1 { st2 with data := d1 } st1 hloop hx2
              dsimp only [] at hrec
              have e1 : totalOf d1 v.name = totalOf st.data v.name + 1 := by
                rw [hv1, hb1]
              have e2 : totalOf d1 xKey = totalOf st.data xKey := by
                unfold totalOf
                rw [hvx2, hb1]
              rw [e1, e2, hb3] at hrec
              omega
            · obtain ⟨w, hw⟩ := Option.isSome_iff_exists.mp hx
              have hx2 : (lookupD d1 xKey).isSome = true := by
                rw [hvx2, hb1]
                exact pushX_isSome _ _ hx
              have hrec := ih buf1 xBuf1 { st2 with data := d1 } st1 hloop hx2
              dsimp only [] at hrec
              have e1 : totalOf d1 v.name = totalOf st.data v.name + 1 := by
                rw [hv1, hb1, totalOf_pushX_ne _ _ _ hvx]
              have e2 : totalOf d1 xKey = totalOf st.data xKey + xBuf.length := by
                have e2a : totalOf d1 xKey = totalOf st2.data xKey := by
                  unfold totalOf
                  rw [hvx2]
                rw [e2a, hb1, totalOf_pushX_self _ _ _ hw]
              rw [e1, e2, hb3] at hrec
              omega

/- #### Every parsed variable name contains a parenthesis, so no
variable can shadow the reserved "x" dataset key. #### -/

theorem tryParenCands_paren (vix t : List Char) :
    ∀ (js : List Nat) (nm tag rem : List Char),
      tryParenCands vix t js = some (nm, tag, rem) → '(' ∈ nm := by
  intro js
  induction js with
  | nil =>
    intro nm tag rem h
    simp [tryParenCands] at h
  | cons j js ih =>
    intro nm tag rem h
    unfold tryParenCands at h
    dsimp only [] at h
    split at h
    · simp only [Option.some.injEq, Prod.mk.injEq] at h
      obtain ⟨h1, -, -⟩ := h
      rw [← h1]
      exact List.mem_append_right _ (List.mem_cons_self _ _)
    · exact ih _ _ _ h

theorem matchVarAt_paren (s nm tag rem : List Char)
    (h : matchVarAt s = some (nm, tag, rem)) : '(' ∈ nm := by
  unfold matchVarAt at h
  dsimp only [] at h
  split_ifs at h
  split at h
  · exact tryParenCands_paren _ _ _ _ _ _ h
  · exact absurd h (by simp)

theorem varScan_paren : ∀ (fuel : Nat) (s : List Char) (v : SteppedVariable),
    v ∈ varScan fuel s → '(' ∈ v.name := by
  intro fuel
  induction fuel with
  | zero =>
    intro s v hv
    exact absurd hv (by simp [varScan])
  | succ fuel ih =>
    intro s v hv
    unfold varScan at hv
    split at hv
    · exact absurd hv (by simp)
    · split at hv
      · rename_i nm tag rem hm
        rcases List.mem_cons.mp hv with hveq | hvtl
        · subst hveq
          exact matchVarAt_paren _ _ _ _ hm
        · exact ih _ _ hvtl
      · exact ih _ _ hv

theorem applyField_vars (st : SteppedSimulation) (k val : List Char)
    (st2 : SteppedSimulation) (h : applyField st k val = .ok st2) :
    ∀ v ∈ st2.declaredVars, v ∈ st.declaredVars ∨ '(' ∈ v.name := by
  unfold applyField at h
  split_ifs at h <;>
    first
      | (injection h with h2
         subst h2
         intro v hv
         first
           | exact Or.inl hv
           | (rcases List.mem_append.mp hv with hl | hr
              · exact Or.inl hl
              · exact Or.inr (varScan_paren _ _ _ hr)))
      | (split at h
         · rename_i n heq
           injection h with h2
           subst h2
           intro v hv
           exact Or.inl hv
         · exact absurd h (by simp))

theorem applyFields_vars (fs : List (List Char × List Char)) :
    ∀ (st st2 : SteppedSimulation), applyFields fs st = .ok st2 →
      ∀ v ∈ st2.declaredVars, v ∈ st.declaredVars ∨ '(' ∈ v.name := by
  induction fs with
  | nil =>
    intro st st2 h v hv
    injection h with h2
    subst h2
    exact Or.inl hv
  | cons kv rest ih =>
    intro st st2 h v hv
    unfold applyFields at h
    split at h
    · exact absurd h (by simp)
    · rename_i stMid heq
      rcases ih stMid st2 h v hv with hmid | hp
      · exact applyField_vars st kv.1 kv.2 stMid heq v hmid
      · exact Or.inr hp

/-- Every variable a successful header phase declares has a parenthesis
in its name (the `[VIx]+\(...\)` shape), so its name is never the
reserved key "x". -/
theorem processHeader_vars_ne_x (b : List Nat) (h : HeaderOut)
    (hh : processHeader b = HeaderResult.ok h) :
    ∀ v ∈ h.st.declaredVars, v.name ≠ xKey := by
  have hparen : ∀ v ∈ h.st.declaredVars, '(' ∈ v.name := by
    unfold processHeader at hh
    split at hh
    · simp at hh
    · split at hh
      · simp at hh
      · dsimp only [] at hh
        split at hh
        · simp at hh
        · split at hh
          · simp at hh
          · rename_i st heq
            simp only [HeaderResult.ok.injEq] at hh
            subst hh
            intro v hv
            rcases applyFields_vars _ _ _ heq v hv with hbase | hp
            · exact absurd hbase (by simp [newSim])
            · exact hp
  intro v hv heq
  have := hparen v hv
  rw [heq] at this
  simp [xKey] at this

/-- Claim C2, amended: for every input on which parse succeeds and whose
header declares pairwise-distinct variable names, every declared
variable's dataset entry holds the same TOTAL number of samples as the
"x" entry (one per point); the per-step segmentation may differ from
x's, as the counterexample shows. -/
theorem c2_totals_amended (b : List Nat) (h : HeaderOut) (st : SteppedSimulation)
    (v : SteppedVariable)
    (hh : processHeader b = HeaderResult.ok h)
    (hp : parseBytes b = PResult.ok st)
    (hv : v ∈ h.st.declaredVars)
    (hnd : (h.st.declaredVars.map SteppedVariable.name).Nodup) :
    totalOf st.data v.name = totalOf st.data xKey := by
  have hnx : ∀ w ∈ h.st.declaredVars, w.name ≠ xKey := processHeader_vars_ne_x b h hh
  have hvx : v.name ≠ xKey := hnx v hv
  have hpb : parseBytes b = finishParse h := by
    unfold parseBytes
    rw [hh]
  rw [hpb] at hp
  unfold finishParse at hp
  dsimp only [] at hp
  split at hp
  · exact absurd hp (by simp)
  · rename_i hcond
    split at hp
    · rename_i s hdl
      injection hp with hp2
      subst hp2
      obtain ⟨z1, z2, z3⟩ := processHeader_fresh b h hh
      rw [z3] at hdl
      have hinit : assocInsert ([] : Data) xKey [] = [(xKey, [])] := rfl
      rw [hinit] at hdl
      have hx0 : (lookupD [(xKey, [])] xKey).isSome = true := by decide
      have := decodeLoop_totals ⟨h.xType, h.yType, h.st.declaredVars⟩ v hv hnd hnx
        h.payload.length h.payload [] _ s hdl hx0
      dsimp only [] at this
      have hxv2 : ¬ xKey = v.name := fun he => hvx he.symm
      have hvx0 : totalOf [(xKey, [])] v.name = 0 := by
        unfold totalOf
        rw [show lookupD [(xKey, [])] v.name = none by simp [lookupD, hxv2]]
        rfl
      have hxx0 : totalOf [(xKey, [])] xKey = 0 := by decide
      rw [hvx0, hxx0] at this
      simpa using this
    · exact absurd hp (by simp)

/-- Claim C2, witness: on the single-sweep file the one declared
variable "V(a)" stores the same total sample count as "x". -/
theorem c2_totals_witness :
    totalOf (okSim (parseBytes c10bytes)).data varAKey =
      totalOf (okSim (parseBytes c10bytes)).data xKey :=
  c2_totals_amended c10bytes (okHeader (processHeader c10bytes)) (okSim (parseBytes c10bytes))
    ⟨VariableClass.Unknown, varAKey⟩ (by decide) (by decide) (by decide) (by decide)

/-- Claim C10, witness: the single-sweep file (1 point, 12-byte payload)
parses with `steps = 0` and `step_size = 12` — the payload byte length,
not the sample count. -/
theorem c10_single_sweep_witness :
    (okSim (parseBytes c10bytes)).stats.steps = 0 ∧
    (okSim (parseBytes c10bytes)).stats.step_size = 12 :=
  ⟨(c10_single_sweep_stats c10bytes (okHeader (processHeader c10bytes))
      (okSim (parseBytes c10bytes)) (by decide) (by decide) (by decide) (by decide)).1,
    (c10_single_sweep_stats c10bytes (okHeader (processHeader c10bytes))
      (okSim (parseBytes c10bytes)) (by decide) (by decide) (by decide) (by decide)).2.trans
      (by decide)⟩

end LTSpice
